import Mathlib

/-!
Verification of the FLAC metadata reader (`src/main.rs`, `src/metadata.rs`).

The embedding models byte buffers as `List Nat` (each element a byte value,
theorems carry `< 256` hypotheses where byte-ness matters), machine integers
as `Nat` with explicit `% 2 ^ w` where the Rust code can wrap, and panics /
fallible operations as `Option` / dedicated result types.
-/

/-- Big-endian interpretation of a byte list, as in `uN::from_be_bytes`. -/
def from_be : List Nat → Nat
  | [] => 0
  | b :: rest => b * 256 ^ rest.length + from_be rest

/-- Big-endian byte list of width `n` for a value, most-significant first
(the inverse of `from_be` on `n`-byte values). -/
def toBE : Nat → Nat → List Nat
  | 0, _ => []
  | n + 1, v => toBE n (v / 256) ++ [v % 256]

/-- Model of slicing `raw[off .. off+len]`: `none` models the out-of-bounds
panic. -/
def sliceRange (l : List Nat) (off len : Nat) : Option (List Nat) :=
  if off + len ≤ l.length then some ((l.drop off).take len) else none

/-- Model of the closure `copy_data_increase_offset` from `Streaminfo::new`:
slice `raw[offset .. offset+offset_len]` (panic if out of bounds), then
`copy_from_slice` into a destination slice of length `dstLen` (panic if the
lengths differ).  Returns the copied bytes and the advanced offset. -/
def copy_data (raw : List Nat) (offset dstLen offset_len : Nat) :
    Option (List Nat × Nat) :=
  match sliceRange raw offset offset_len with
  | none => none
  | some src => if src.length = dstLen then some (src, offset + offset_len) else none

/-- The hidden mutable state of the closure `get_sr_nc_bps_tsc_u64`:
`ignore_mask` and `remaining_len` (both captured `u64`/`u32` variables). -/
structure BitSt where
  mask : Nat
  rem : Nat
deriving DecidableEq, Repr

/-- Model of the closure `get_sr_nc_bps_tsc_u64` in `Streaminfo::new`:
reads `n` bits from the 64-bit cluster `raw`, using an xor-mask of the bits
already consumed.  The `% 2 ^ 64` models the wrapping `u64` left shift. -/
def get_sr_nc_bps_tsc (raw : Nat) (st : BitSt) (n : Nat) : Nat × BitSt :=
  if n > st.rem then (0, st)
  else
    let mask := (st.mask <<< n) % 2 ^ 64
    let rem := st.rem - n
    let ret := (raw >>> rem) ^^^ mask
    (ret, ⟨mask ||| ret, rem⟩)

/-- The decoded STREAMINFO record (struct `Streaminfo` in `main.rs`; all
fields modelled as `Nat`). -/
structure Streaminfo where
  min_blk_size : Nat
  max_blk_size : Nat
  min_frame_size : Nat
  max_frame_size : Nat
  sample_rate : Nat
  num_channels : Nat
  bits_per_sample : Nat
  total_sample_count : Nat
  md5_checksum : Nat
deriving DecidableEq, Repr

/-- Outcome of `Streaminfo::new`: the early-return `Err` for short input,
a Rust panic (slice-index / `copy_from_slice` / `expect` failure), or the
decoded record. -/
inductive SiResult where
  | insufficient
  | panicked
  | ok (si : Streaminfo)
deriving DecidableEq, Repr

/-- Model of `u32::try_from` on a `u64` value. -/
def u32_try_from (v : Nat) : Option Nat :=
  if v < 2 ^ 32 then some v else none

/-- Model of `u8::try_from` on a `u64` value. -/
def u8_try_from (v : Nat) : Option Nat :=
  if v < 2 ^ 8 then some v else none

/-- The body of `Streaminfo::new` in `main.rs` after the length guard:
the sequence of `copy_data_increase_offset` copies (2, 2, 3, 3, 8, 16 bytes,
the frame sizes zero-extended into 4-byte words), the four sub-byte reads
from the 8-byte cluster, and the integer narrowings.  Returns the record and
the final byte offset; `none` models a panic. -/
def decodeSI (raw : List Nat) : Option (Streaminfo × Nat) :=
  (copy_data raw 0 2 2).bind fun q1 =>
  (copy_data raw q1.2 2 2).bind fun q2 =>
  (copy_data raw q2.2 3 3).bind fun q3 =>
  (copy_data raw q3.2 3 3).bind fun q4 =>
  (copy_data raw q4.2 8 8).bind fun q5 =>
  let cluster := from_be q5.1
  let r1 := get_sr_nc_bps_tsc cluster ⟨0, 64⟩ 20
  let r2 := get_sr_nc_bps_tsc cluster r1.2 3
  let r3 := get_sr_nc_bps_tsc cluster r2.2 5
  let r4 := get_sr_nc_bps_tsc cluster r3.2 36
  (u32_try_from r1.1).bind fun sample_rate =>
  (u8_try_from r2.1).bind fun num_channels =>
  (u8_try_from r3.1).bind fun bits_per_sample =>
  (copy_data raw q5.2 16 16).bind fun q6 =>
  some (⟨from_be q1.1, from_be q2.1, from_be (0 :: q3.1), from_be (0 :: q4.1),
    sample_rate, num_channels, bits_per_sample, r4.1, from_be q6.1⟩, q6.2)

/-- Model of `Streaminfo::new` in `main.rs`: length guard
(`raw_data.len() < 34`), then the decode body. -/
def Streaminfo.new (raw : List Nat) : SiResult :=
  if raw.length < 34 then .insufficient
  else
    match decodeSI raw with
    | some (si, _) => .ok si
    | none => .panicked

namespace Metadata

/-- The body of `Streaminfo::new` in `metadata.rs` after the length guard.
Its `get_blk_size` copies `STREAMINFO_BLK_BIT_SIZE = 16` source bytes into a
2-byte destination slice and its `get_frame_size` copies
`STREAMINFO_FRAME_BIT_SIZE = 24` source bytes into a 3-byte destination
slice; the block sizes are zero-extended into 4-byte words.  The narrowings
of `num_channels` and `bits_per_sample` use `u32::try_from` there. -/
def decodeSI (raw : List Nat) : Option (Streaminfo × Nat) :=
  (copy_data raw 0 2 16).bind fun q1 =>
  (copy_data raw q1.2 2 16).bind fun q2 =>
  (copy_data raw q2.2 3 24).bind fun q3 =>
  (copy_data raw q3.2 3 24).bind fun q4 =>
  (copy_data raw q4.2 8 8).bind fun q5 =>
  let cluster := from_be q5.1
  let r1 := get_sr_nc_bps_tsc cluster ⟨0, 64⟩ 20
  let r2 := get_sr_nc_bps_tsc cluster r1.2 3
  let r3 := get_sr_nc_bps_tsc cluster r2.2 5
  let r4 := get_sr_nc_bps_tsc cluster r3.2 36
  (u32_try_from r1.1).bind fun sample_rate =>
  (u32_try_from r2.1).bind fun num_channels =>
  (u32_try_from r3.1).bind fun bits_per_sample =>
  (copy_data raw q5.2 16 16).bind fun q6 =>
  some (⟨from_be (0 :: 0 :: q1.1), from_be (0 :: 0 :: q2.1), from_be (0 :: q3.1),
    from_be (0 :: q4.1), sample_rate, num_channels, bits_per_sample, r4.1,
    from_be q6.1⟩, q6.2)

/-- Model of `Streaminfo::new` in `metadata.rs` (the duplicated/earlier
draft): same length guard (`STREAMINFO_SIZE = 272 / 8 = 34`), then its
decode body. -/
def Streaminfo.new (raw : List Nat) : SiResult :=
  if raw.length < 34 then .insufficient
  else
    match Metadata.decodeSI raw with
    | some (si, _) => .ok si
    | none => .panicked

end Metadata

/-- The metadata block type enum (`MetadataBlkType` in `main.rs`). -/
inductive MetadataBlkType where
  | streaminfo
  | padding
  | application
  | seektable
  | vorbisComment
  | cuesheet
  | picture
  | forbidden
deriving DecidableEq, Repr

/-- The 7-bit discriminant of each block type variant (`#[repr(u8)]`
values). -/
def typeCode : MetadataBlkType → Nat
  | .streaminfo => 0
  | .padding => 1
  | .application => 2
  | .seektable => 3
  | .vorbisComment => 4
  | .cuesheet => 5
  | .picture => 6
  | .forbidden => 127

/-- The decoded 4-byte metadata block header (`MetadataBlkHdr` in
`main.rs`). -/
structure MetadataBlkHdr where
  is_final_block : Bool
  blk_type : MetadataBlkType
  length : Nat
deriving DecidableEq, Repr

/-- Model of `create_metadata_blk_hdr` in `main.rs` (identical to
`Header::new` in `metadata.rs`), on the four bytes of the header word.
The error carries the offending 7-bit type code.  The length is
`u32::from_be_bytes(word) ^ (u32::from(byte0) << 24)`; the `% 2 ^ 32`
models the `u32` shift. -/
def create_metadata_blk_hdr (b0 b1 b2 b3 : Nat) : Except Nat MetadataBlkHdr :=
  let is_final_block : Bool := b0 &&& 128 != 0
  let code := b0 &&& 127
  let length := from_be [b0, b1, b2, b3] ^^^ ((b0 <<< 24) % 2 ^ 32)
  if code = 0 then .ok ⟨is_final_block, .streaminfo, length⟩
  else if code = 1 then .ok ⟨is_final_block, .padding, length⟩
  else if code = 2 then .ok ⟨is_final_block, .application, length⟩
  else if code = 3 then .ok ⟨is_final_block, .seektable, length⟩
  else if code = 4 then .ok ⟨is_final_block, .vorbisComment, length⟩
  else if code = 5 then .ok ⟨is_final_block, .cuesheet, length⟩
  else if code = 6 then .ok ⟨is_final_block, .picture, length⟩
  else if code = 127 then .ok ⟨is_final_block, .forbidden, length⟩
  else .error code

/-- Errors of the parse loop `read_flac_hdr` in `main.rs`. -/
inductive ParseErr where
  | headerTooShort
  | invalidHeader
  | invalidMetadataBlock
  | unexpectedBlockType (code : Nat)
  | streaminfoInsufficient
  | streaminfoPanicked
deriving DecidableEq, Repr

/-- The payload buffer read for a block of declared length `n`: the code
allocates `n` zero bytes, issues a single `read`, and ignores the byte
count, so the buffer is the available bytes (at most `n`) followed by the
zero-initialized remainder. -/
def padRead (n : Nat) (l : List Nat) : List Nat :=
  l.take n ++ List.replicate (n - l.length) 0

/-- The block-iteration loop of `read_flac_hdr` in `main.rs`: read a 4-byte
header (fewer than 4 bytes available is an error), decode it (a bad type
code aborts), read the payload of declared length (short reads are not
checked, see `padRead`), decode STREAMINFO payloads, and stop after the
first block whose final-block flag is set. -/
def blockLoop : List Nat → Except ParseErr Unit
  | b0 :: b1 :: b2 :: b3 :: rest =>
    match create_metadata_blk_hdr b0 b1 b2 b3 with
    | .error c => .error (.unexpectedBlockType c)
    | .ok hdr =>
      if hdr.blk_type = .streaminfo then
        match Streaminfo.new (padRead hdr.length rest) with
        | .insufficient => .error .streaminfoInsufficient
        | .panicked => .error .streaminfoPanicked
        | .ok _ => if hdr.is_final_block then .ok () else blockLoop (rest.drop hdr.length)
      else
        if hdr.is_final_block then .ok () else blockLoop (rest.drop hdr.length)
  | _ => .error .invalidMetadataBlock
termination_by l => l.length
decreasing_by
  all_goals simp only [List.length_drop, List.length_cons]; omega

/-- The 4-byte magic `"fLaC"`. -/
def flacMagic : List Nat := [0x66, 0x4C, 0x61, 0x43]

/-- Model of `read_flac_hdr` in `main.rs`: read 4 bytes (error if fewer are
available), validate the magic, then run the block loop on the rest. -/
def readFlacHdr (src : List Nat) : Except ParseErr Unit :=
  if src.length < 4 then .error .headerTooShort
  else if src.take 4 = flacMagic then blockLoop (src.drop 4)
  else .error .invalidHeader

/-- The 8-byte sub-byte-packed cluster of a STREAMINFO payload (bytes
10..18), as a 64-bit big-endian integer. -/
def clusterOf (raw : List Nat) : Nat :=
  from_be ((raw.drop 10).take 8)

/-- Encoder written from the specification's bit layout (16, 16, 24, 24,
20, 3, 5, 36, 128 bits, most-significant first): the inverse packing
against which the decoder's round-trip law is stated. -/
def specPackStreaminfo (si : Streaminfo) : List Nat :=
  toBE 2 si.min_blk_size ++ toBE 2 si.max_blk_size ++
  toBE 3 si.min_frame_size ++ toBE 3 si.max_frame_size ++
  toBE 8 (si.sample_rate * 2 ^ 44 + si.num_channels * 2 ^ 41 +
    si.bits_per_sample * 2 ^ 36 + si.total_sample_count) ++
  toBE 16 si.md5_checksum

/-- A byte source on which the block loop succeeds: a chain of blocks, each
a decodable 4-byte header plus its declared payload (decoded when the type
is STREAMINFO), every block non-final except the last one. -/
inductive ChainOk : List Nat → Prop where
  | last (b0 b1 b2 b3 : Nat) (rest : List Nat) (hdr : MetadataBlkHdr)
      (hdec : create_metadata_blk_hdr b0 b1 b2 b3 = .ok hdr)
      (hsi : hdr.blk_type = .streaminfo →
        ∃ si, Streaminfo.new (padRead hdr.length rest) = .ok si)
      (hfin : hdr.is_final_block = true) :
      ChainOk (b0 :: b1 :: b2 :: b3 :: rest)
  | step (b0 b1 b2 b3 : Nat) (rest : List Nat) (hdr : MetadataBlkHdr)
      (hdec : create_metadata_blk_hdr b0 b1 b2 b3 = .ok hdr)
      (hsi : hdr.blk_type = .streaminfo →
        ∃ si, Streaminfo.new (padRead hdr.length rest) = .ok si)
      (hfin : hdr.is_final_block = false)
      (htail : ChainOk (rest.drop hdr.length)) :
      ChainOk (b0 :: b1 :: b2 :: b3 :: rest)

/-- A block chain holding `n + 1` PADDING blocks of length 0 (each header
`[0x01, 0, 0, 0]`, the last `[0x81, 0, 0, 0]`) and no STREAMINFO block. -/
def paddingChain : Nat → List Nat
  | 0 => [129, 0, 0, 0]
  | n + 1 => 1 :: 0 :: 0 :: 0 :: paddingChain n

/-! ### Arithmetic helper lemmas -/

/-- XOR with a value whose set bits all lie above `2 ^ i` is addition. -/
lemma xor_two_pow_mul_add {i b : Nat} (a : Nat) (hb : b < 2 ^ i) :
    2 ^ i * a ^^^ b = 2 ^ i * a + b := by
  apply Nat.eq_of_testBit_eq
  intro j
  rw [Nat.testBit_xor, Nat.testBit_mul_pow_two_add a hb, Nat.testBit_mul_pow_two]
  by_cases hj : j < i
  · simp [hj, Nat.not_le_of_lt hj]
  · have hbj : b < 2 ^ j :=
      lt_of_lt_of_le hb (Nat.pow_le_pow_right (by norm_num) (Nat.le_of_not_lt hj))
    simp [hj, Nat.le_of_not_lt hj, Nat.testBit_lt_two_pow hbj]

/-- Cancelling the already-consumed high bits by XOR recovers the low
field. -/
lemma xor_cancel_two_pow {i b : Nat} (a : Nat) (hb : b < 2 ^ i) :
    (2 ^ i * a + b) ^^^ 2 ^ i * a = b := by
  rw [← xor_two_pow_mul_add a hb, Nat.xor_comm, Nat.xor_cancel_left]

lemma from_be_lt : ∀ l : List Nat, (∀ b ∈ l, b < 256) → from_be l < 256 ^ l.length
  | [], _ => by simp [from_be]
  | b :: rest, h => by
    have hb : b < 256 := h b (List.mem_cons_self b rest)
    have ih := from_be_lt rest (fun x hx => h x (List.mem_cons_of_mem _ hx))
    simp only [from_be, List.length_cons]
    calc b * 256 ^ rest.length + from_be rest
        < b * 256 ^ rest.length + 256 ^ rest.length := Nat.add_lt_add_left ih _
      _ = (b + 1) * 256 ^ rest.length := by ring
      _ ≤ 256 * 256 ^ rest.length := Nat.mul_le_mul_right _ hb
      _ = 256 ^ (rest.length + 1) := by ring

lemma from_be_append (l : List Nat) (a : Nat) :
    from_be (l ++ [a]) = from_be l * 256 + a := by
  induction l with
  | nil => simp [from_be]
  | cons b rest ih =>
    have h1 : from_be ((b :: rest) ++ [a])
        = b * 256 ^ (rest ++ [a]).length + from_be (rest ++ [a]) := rfl
    have h2 : from_be (b :: rest) = b * 256 ^ rest.length + from_be rest := rfl
    have hlen : (rest ++ [a]).length = rest.length + 1 := by simp
    rw [h1, h2, ih, hlen]
    ring

/-- Packing the big-endian value of an `n`-byte list back into `n` bytes
reproduces the list. -/
lemma toBE_from_be (l : List Nat) (h : ∀ b ∈ l, b < 256) :
    toBE l.length (from_be l) = l := by
  induction l using List.reverseRecOn with
  | nil => simp [toBE, from_be]
  | append_singleton l a ih =>
    have ha : a < 256 := h a (by simp)
    have hl : ∀ b ∈ l, b < 256 := fun b hb => h b (by simp [hb])
    have hdiv : (from_be l * 256 + a) / 256 = from_be l := by omega
    have hmod : (from_be l * 256 + a) % 256 = a := by omega
    have hlen : (l ++ [a]).length = l.length + 1 := by simp
    rw [from_be_append, hlen]
    simp only [toBE, hdiv, hmod, ih hl]

lemma copy_data_eq (raw : List Nat) (off n : Nat) (h : off + n ≤ raw.length) :
    copy_data raw off n n = some ((raw.drop off).take n, off + n) := by
  have hlen : ((raw.drop off).take n).length = n := by
    simp only [List.length_take, List.length_drop]
    omega
  simp [copy_data, sliceRange, h, hlen]

/-- One read of the bit cursor, in terms of the cluster value: starting
with `k` unread bits (mask holding the top `64 - k` bits already consumed),
reading `n` bits returns the bit field `c / 2 ^ (k - n) % 2 ^ n` and leaves
`k - n` unread bits. -/
lemma get_step_gen (c m n : Nat) (hc : c < 2 ^ 64) :
    get_sr_nc_bps_tsc c ⟨c / 2 ^ (m + n), m + n⟩ n =
      (c / 2 ^ m % 2 ^ n, ⟨c / 2 ^ m, m⟩) := by
  have hkn : n ≤ m + n := by omega
  set k := m + n with hk
  have hmk : m = k - n := by omega
  rw [hmk]
  have hmul : c / 2 ^ k * 2 ^ n < 2 ^ 64 := by
    calc c / 2 ^ k * 2 ^ n ≤ c / 2 ^ k * 2 ^ k :=
          Nat.mul_le_mul_left _ (Nat.pow_le_pow_right (by norm_num) hkn)
      _ ≤ c := Nat.div_mul_le_self c (2 ^ k)
      _ < 2 ^ 64 := hc
  have hdd : c / 2 ^ (k - n) / 2 ^ n = c / 2 ^ k := by
    rw [Nat.div_div_eq_div_mul, ← pow_add]
    have hkk : k - n + n = k := by omega
    rw [hkk]
  have hdecomp : c / 2 ^ (k - n) = 2 ^ n * (c / 2 ^ k) + c / 2 ^ (k - n) % 2 ^ n := by
    conv_lhs => rw [← Nat.div_add_mod (c / 2 ^ (k - n)) (2 ^ n)]
    rw [hdd]
  have hmlt : c / 2 ^ (k - n) % 2 ^ n < 2 ^ n := Nat.mod_lt _ (Nat.pos_pow_of_pos n (by norm_num))
  simp only [get_sr_nc_bps_tsc, Nat.shiftLeft_eq, Nat.shiftRight_eq_div_pow,
    Nat.mod_eq_of_lt hmul, if_neg (by omega : ¬ n > k)]
  rw [hdecomp, Nat.mul_comm (c / 2 ^ k) (2 ^ n), xor_cancel_two_pow _ hmlt,
    ← Nat.mul_add_lt_is_or hmlt]
  simp [Nat.mul_add_mod, Nat.mod_eq_of_lt hmlt]

/-- The four consecutive reads of the bit cursor over the 64-bit cluster:
the 20/3/5/36-bit fields, most-significant first, ending with a fully
consumed cursor (`rem = 0`). -/
lemma cluster_fields (c : Nat) (hc : c < 2 ^ 64) :
    get_sr_nc_bps_tsc c ⟨0, 64⟩ 20 = (c / 2 ^ 44 % 2 ^ 20, ⟨c / 2 ^ 44, 44⟩)
    ∧ get_sr_nc_bps_tsc c ⟨c / 2 ^ 44, 44⟩ 3 = (c / 2 ^ 41 % 2 ^ 3, ⟨c / 2 ^ 41, 41⟩)
    ∧ get_sr_nc_bps_tsc c ⟨c / 2 ^ 41, 41⟩ 5 = (c / 2 ^ 36 % 2 ^ 5, ⟨c / 2 ^ 36, 36⟩)
    ∧ get_sr_nc_bps_tsc c ⟨c / 2 ^ 36, 36⟩ 36 = (c % 2 ^ 36, ⟨c, 0⟩) := by
  refine ⟨?_, ?_, ?_, ?_⟩
  · have h := get_step_gen c 44 20 hc
    rw [show (44 + 20 : Nat) = 64 from rfl, Nat.div_eq_of_lt hc] at h
    exact h
  · have h := get_step_gen c 41 3 hc
    rw [show (41 + 3 : Nat) = 44 from rfl] at h
    exact h
  · have h := get_step_gen c 36 5 hc
    rw [show (36 + 5 : Nat) = 41 from rfl] at h
    exact h
  · have h := get_step_gen c 0 36 hc
    rw [show (0 + 36 : Nat) = 36 from rfl, pow_zero, Nat.div_one] at h
    exact h

/-- Full characterization of the `main.rs` decode body on any buffer of at
least 34 byte values: every copy stays in bounds with matching lengths, the
four cluster fields are the 20/3/5/36-bit spans of bytes 10..18, every
narrowing succeeds, and the final byte offset is 34 (272 bits). -/
lemma decodeSI_eq (raw : List Nat) (hlen : 34 ≤ raw.length) (hb : ∀ b ∈ raw, b < 256) :
    decodeSI raw = some (⟨from_be (raw.take 2), from_be ((raw.drop 2).take 2),
      from_be (0 :: (raw.drop 4).take 3), from_be (0 :: (raw.drop 7).take 3),
      clusterOf raw / 2 ^ 44, clusterOf raw / 2 ^ 41 % 2 ^ 3,
      clusterOf raw / 2 ^ 36 % 2 ^ 5, clusterOf raw % 2 ^ 36,
      from_be ((raw.drop 18).take 16)⟩, 34) := by
  have e1 := copy_data_eq raw 0 2 (by omega)
  have e2 := copy_data_eq raw 2 2 (by omega)
  have e3 := copy_data_eq raw 4 3 (by omega)
  have e4 := copy_data_eq raw 7 3 (by omega)
  have e5 := copy_data_eq raw 10 8 (by omega)
  have e6 := copy_data_eq raw 18 16 (by omega)
  simp only [List.drop_zero] at e1
  norm_num at e1 e2 e3 e4 e5 e6
  have hseglen : ((raw.drop 10).take 8).length = 8 := by
    simp only [List.length_take, List.length_drop]
    omega
  have hsegb : ∀ b ∈ (raw.drop 10).take 8, b < 256 := by
    intro b hbm
    exact hb b (List.mem_of_mem_drop (List.mem_of_mem_take hbm))
  have hC : from_be ((raw.drop 10).take 8) < 2 ^ 64 := by
    have h := from_be_lt _ hsegb
    rw [hseglen] at h
    exact lt_of_lt_of_le h (by norm_num)
  obtain ⟨g1, g2, g3, g4⟩ := cluster_fields (from_be ((raw.drop 10).take 8)) hC
  have hdiv44 : from_be ((raw.drop 10).take 8) / 2 ^ 44 < 2 ^ 20 :=
    Nat.div_lt_of_lt_mul (lt_of_lt_of_le hC (by norm_num))
  have t1 : u32_try_from (from_be ((raw.drop 10).take 8) / 2 ^ 44 % 2 ^ 20)
      = some (from_be ((raw.drop 10).take 8) / 2 ^ 44) := by
    rw [Nat.mod_eq_of_lt hdiv44]
    unfold u32_try_from
    rw [if_pos (lt_trans hdiv44 (by norm_num))]
  have t2 : u8_try_from (from_be ((raw.drop 10).take 8) / 2 ^ 41 % 2 ^ 3)
      = some (from_be ((raw.drop 10).take 8) / 2 ^ 41 % 2 ^ 3) := by
    unfold u8_try_from
    rw [if_pos (lt_trans (Nat.mod_lt _ (by norm_num)) (by norm_num))]
  have t3 : u8_try_from (from_be ((raw.drop 10).take 8) / 2 ^ 36 % 2 ^ 5)
      = some (from_be ((raw.drop 10).take 8) / 2 ^ 36 % 2 ^ 5) := by
    unfold u8_try_from
    rw [if_pos (lt_trans (Nat.mod_lt _ (by norm_num)) (by norm_num))]
  simp only [decodeSI, clusterOf, e1, e2, e3, e4, e5, e6, Option.some_bind,
    g1, g2, g3, g4, t1, t2, t3]

/-- On any buffer of at least 34 byte values, `Streaminfo::new` of
`main.rs` returns `Ok` with the characterized fields (no panic). -/
lemma streaminfo_new_eq (raw : List Nat) (hlen : 34 ≤ raw.length)
    (hb : ∀ b ∈ raw, b < 256) :
    Streaminfo.new raw = .ok ⟨from_be (raw.take 2), from_be ((raw.drop 2).take 2),
      from_be (0 :: (raw.drop 4).take 3), from_be (0 :: (raw.drop 7).take 3),
      clusterOf raw / 2 ^ 44, clusterOf raw / 2 ^ 41 % 2 ^ 3,
      clusterOf raw / 2 ^ 36 % 2 ^ 5, clusterOf raw % 2 ^ 36,
      from_be ((raw.drop 18).take 16)⟩ := by
  unfold Streaminfo.new
  rw [if_neg (by omega), decodeSI_eq raw hlen hb]

/-- The `metadata.rs` draft panics on every buffer of at least 34 bytes:
its first `get_blk_size` copies 16 source bytes into a 2-byte destination
slice, so `copy_from_slice` always fails. -/
lemma metadata_streaminfo_new_panics (raw : List Nat) (hlen : 34 ≤ raw.length) :
    Metadata.Streaminfo.new raw = .panicked := by
  have h16 : (0 : Nat) + 16 ≤ raw.length := by omega
  have hl : ((raw.drop 0).take 16).length = 16 := by
    simp only [List.length_take, List.length_drop]
    omega
  have h : copy_data raw 0 2 16 = none := by
    simp [copy_data, sliceRange, h16, hl]
  have hd : Metadata.decodeSI raw = none := by
    unfold Metadata.decodeSI
    rw [h]
    rfl
  unfold Metadata.Streaminfo.new
  rw [if_neg (by omega), hd]

/-- Expansion of the big-endian value of the 4-byte header word. -/
lemma from_be_four (b0 b1 b2 b3 : Nat) :
    from_be [b0, b1, b2, b3] = 2 ^ 24 * b0 + (b1 * 2 ^ 16 + b2 * 2 ^ 8 + b3) := by
  show b0 * 256 ^ 3 + (b1 * 256 ^ 2 + (b2 * 256 ^ 1 + (b3 * 256 ^ 0 + 0)))
    = 2 ^ 24 * b0 + (b1 * 2 ^ 16 + b2 * 2 ^ 8 + b3)
  norm_num
  ring

/-- The header length computation recovers exactly the 24-bit big-endian
integer of bytes 1-3. -/
lemma hdr_length_eq (b0 b1 b2 b3 : Nat) (h0 : b0 < 256) (h1 : b1 < 256)
    (h2 : b2 < 256) (h3 : b3 < 256) :
    from_be [b0, b1, b2, b3] ^^^ ((b0 <<< 24) % 2 ^ 32)
      = b1 * 2 ^ 16 + b2 * 2 ^ 8 + b3 := by
  have hlow : b1 * 2 ^ 16 + b2 * 2 ^ 8 + b3 < 2 ^ 24 := by omega
  have hshift : (b0 <<< 24) % 2 ^ 32 = 2 ^ 24 * b0 := by
    rw [Nat.shiftLeft_eq, Nat.mod_eq_of_lt (by omega)]
    ring
  rw [from_be_four, hshift, xor_cancel_two_pow _ hlow]

/-- Bit 31 of the 4-byte big-endian header word is the top bit of byte 0. -/
lemma word_testBit31 (b0 b1 b2 b3 : Nat) (h1 : b1 < 256)
    (h2 : b2 < 256) (h3 : b3 < 256) :
    (from_be [b0, b1, b2, b3]).testBit 31 = (b0 &&& 128 != 0) := by
  have hlow : b1 * 2 ^ 16 + b2 * 2 ^ 8 + b3 < 2 ^ 24 := by omega
  rw [from_be_four, Nat.testBit_mul_pow_two_add b0 hlow]
  simp only [show ¬ (31 < 24) by omega, if_false, show (31 - 24 : Nat) = 7 from rfl]
  rw [show (128 : Nat) = 2 ^ 7 from rfl, Nat.and_two_pow]
  cases hbit : b0.testBit 7 <;> simp [hbit]

/-- Byte 0 is the top byte of the 4-byte big-endian header word. -/
lemma word_byte0 (b0 b1 b2 b3 : Nat) (h1 : b1 < 256)
    (h2 : b2 < 256) (h3 : b3 < 256) :
    from_be [b0, b1, b2, b3] >>> 24 = b0 := by
  have hlow : b1 * 2 ^ 16 + b2 * 2 ^ 8 + b3 < 2 ^ 24 := by omega
  rw [from_be_four, Nat.shiftRight_eq_div_pow]
  omega

/-- What a successful header decode yields, in terms of the four bytes. -/
lemma create_hdr_ok (b0 b1 b2 b3 : Nat) (hdr : MetadataBlkHdr)
    (h : create_metadata_blk_hdr b0 b1 b2 b3 = .ok hdr) :
    hdr.is_final_block = (b0 &&& 128 != 0)
    ∧ typeCode hdr.blk_type = b0 &&& 127
    ∧ hdr.length = from_be [b0, b1, b2, b3] ^^^ ((b0 <<< 24) % 2 ^ 32) := by
  simp only [create_metadata_blk_hdr] at h
  split_ifs at h with hc0 hc1 hc2 hc3 hc4 hc5 hc6 hc7
  all_goals injection h with h2
  all_goals subst h2
  all_goals exact ⟨rfl, by simp only [typeCode]; omega, rfl⟩

/-- A header decode succeeds exactly when the 7-bit type code is 0..6 or
127. -/
lemma create_hdr_isOk (b0 b1 b2 b3 : Nat) :
    (create_metadata_blk_hdr b0 b1 b2 b3).isOk = true
      ↔ (b0 &&& 127 < 7 ∨ b0 &&& 127 = 127) := by
  simp only [create_metadata_blk_hdr]
  split_ifs with hc0 hc1 hc2 hc3 hc4 hc5 hc6 hc7 <;>
    simp only [Except.isOk, Except.toBool] <;> simp <;> omega

/-- One successful iteration of the block loop: a decodable header (whose
STREAMINFO payload, if applicable, decodes) consumes the 4 header bytes and
`length` payload bytes, then stops or continues on the final-block flag. -/
lemma blockLoop_step (b0 b1 b2 b3 : Nat) (rest : List Nat) (hdr : MetadataBlkHdr)
    (hdec : create_metadata_blk_hdr b0 b1 b2 b3 = .ok hdr)
    (hsi : hdr.blk_type = .streaminfo →
      ∃ si, Streaminfo.new (padRead hdr.length rest) = .ok si) :
    blockLoop (b0 :: b1 :: b2 :: b3 :: rest) =
      if hdr.is_final_block then .ok () else blockLoop (rest.drop hdr.length) := by
  by_cases hbt : hdr.blk_type = .streaminfo
  · obtain ⟨si, hok⟩ := hsi hbt
    simp only [blockLoop, hdec, hbt, if_true, hok]
  · simp only [blockLoop, hdec, if_neg hbt]

/-- A header whose type code is rejected aborts the loop at once. -/
lemma blockLoop_error (b0 b1 b2 b3 : Nat) (rest : List Nat) (c : Nat)
    (hdec : create_metadata_blk_hdr b0 b1 b2 b3 = .error c) :
    blockLoop (b0 :: b1 :: b2 :: b3 :: rest) = .error (.unexpectedBlockType c) := by
  simp only [blockLoop, hdec]

lemma chainOk_blockLoop {src : List Nat} (h : ChainOk src) :
    blockLoop src = .ok () := by
  induction h with
  | last b0 b1 b2 b3 rest hdr hdec hsi hfin =>
    rw [blockLoop_step b0 b1 b2 b3 rest hdr hdec hsi]
    simp [hfin]
  | step b0 b1 b2 b3 rest hdr hdec hsi hfin htail ih =>
    rw [blockLoop_step b0 b1 b2 b3 rest hdr hdec hsi]
    simp [hfin]
    exact ih

lemma blockLoop_chainOk : ∀ n (src : List Nat), src.length ≤ n →
    blockLoop src = .ok () → ChainOk src := by
  intro n
  induction n with
  | zero =>
    intro src hlen hok
    rcases src with _ | ⟨b0, rest⟩
    · simp [blockLoop] at hok
    · simp at hlen
  | succ n ih =>
    intro src hlen hok
    rcases src with _ | ⟨b0, _ | ⟨b1, _ | ⟨b2, _ | ⟨b3, rest⟩⟩⟩⟩
    · simp [blockLoop] at hok
    · simp [blockLoop] at hok
    · simp [blockLoop] at hok
    · simp [blockLoop] at hok
    · cases hdec : create_metadata_blk_hdr b0 b1 b2 b3 with
      | error c =>
        rw [blockLoop_error b0 b1 b2 b3 rest c hdec] at hok
        exact absurd hok (by simp)
      | ok hdr =>
        have hlen2 : (rest.drop hdr.length).length ≤ n := by
          simp only [List.length_drop]
          simp only [List.length_cons] at hlen
          omega
        by_cases hbt : hdr.blk_type = .streaminfo
        · simp only [blockLoop, hdec, hbt, if_true] at hok
          cases hsin : Streaminfo.new (padRead hdr.length rest) with
          | insufficient => rw [hsin] at hok; exact absurd hok (by simp)
          | panicked => rw [hsin] at hok; exact absurd hok (by simp)
          | ok si =>
            rw [hsin] at hok
            cases hfin : hdr.is_final_block with
            | true => exact ChainOk.last b0 b1 b2 b3 rest hdr hdec (fun _ => ⟨si, hsin⟩) hfin
            | false =>
              rw [hfin, if_neg (by simp)] at hok
              exact ChainOk.step b0 b1 b2 b3 rest hdr hdec (fun _ => ⟨si, hsin⟩) hfin
                (ih _ hlen2 hok)
        · simp only [blockLoop, hdec, if_neg hbt] at hok
          cases hfin : hdr.is_final_block with
          | true =>
            exact ChainOk.last b0 b1 b2 b3 rest hdr hdec (fun hc => absurd hc hbt) hfin
          | false =>
            rw [hfin, if_neg (by simp)] at hok
            exact ChainOk.step b0 b1 b2 b3 rest hdr hdec (fun hc => absurd hc hbt) hfin
              (ih _ hlen2 hok)

/-- Running the parser on a source that starts with the valid magic is
running the block loop on the remainder. -/
lemma readFlacHdr_magic (src : List Nat) :
    readFlacHdr (flacMagic ++ src) = blockLoop src := by
  simp [readFlacHdr, flacMagic, List.take_succ_cons, List.drop_succ_cons]

/-- A type code in the 7..126 gap makes the header decoder itself return
the error carrying that code. -/
lemma create_hdr_error (b0 b1 b2 b3 : Nat) (h7 : 7 ≤ b0 &&& 127)
    (h126 : b0 &&& 127 ≤ 126) :
    create_metadata_blk_hdr b0 b1 b2 b3 = .error (b0 &&& 127) := by
  simp only [create_metadata_blk_hdr]
  split_ifs with hc0 hc1 hc2 hc3 hc4 hc5 hc6 hc7 <;> first | rfl | omega

/-! ### Claim theorems -/

/-- C2: for every 4-byte header word, the decoded header (whenever decoding
succeeds) takes `is_last` from bit 31 of the big-endian word alone, the
type code from bits 30..24, and the length as the 24-bit big-endian integer
of bytes 1-3 (hence always below `2 ^ 24`); consequently two words agreeing
on bit 31 can never decode to different `is_last` values. -/
theorem c2_header_bit_layout :
    (∀ b0 b1 b2 b3 : Nat, ∀ hdr : MetadataBlkHdr,
      b0 < 256 → b1 < 256 → b2 < 256 → b3 < 256 →
      create_metadata_blk_hdr b0 b1 b2 b3 = .ok hdr →
      hdr.is_final_block = (from_be [b0, b1, b2, b3]).testBit 31
      ∧ typeCode hdr.blk_type = (from_be [b0, b1, b2, b3] >>> 24) &&& 127
      ∧ hdr.length = b1 * 2 ^ 16 + b2 * 2 ^ 8 + b3
      ∧ hdr.length < 2 ^ 24)
    ∧ (∀ b0 b1 b2 b3 b0' b1' b2' b3' : Nat, ∀ hdr hdr' : MetadataBlkHdr,
      b0 < 256 → b1 < 256 → b2 < 256 → b3 < 256 →
      b0' < 256 → b1' < 256 → b2' < 256 → b3' < 256 →
      (from_be [b0, b1, b2, b3]).testBit 31 = (from_be [b0', b1', b2', b3']).testBit 31 →
      create_metadata_blk_hdr b0 b1 b2 b3 = .ok hdr →
      create_metadata_blk_hdr b0' b1' b2' b3' = .ok hdr' →
      hdr.is_final_block = hdr'.is_final_block) := by
  have main : ∀ b0 b1 b2 b3 : Nat, ∀ hdr : MetadataBlkHdr,
      b0 < 256 → b1 < 256 → b2 < 256 → b3 < 256 →
      create_metadata_blk_hdr b0 b1 b2 b3 = .ok hdr →
      hdr.is_final_block = (from_be [b0, b1, b2, b3]).testBit 31
      ∧ typeCode hdr.blk_type = (from_be [b0, b1, b2, b3] >>> 24) &&& 127
      ∧ hdr.length = b1 * 2 ^ 16 + b2 * 2 ^ 8 + b3
      ∧ hdr.length < 2 ^ 24 := by
    intro b0 b1 b2 b3 hdr h0 h1 h2 h3 hdec
    obtain ⟨hf, ht, hl⟩ := create_hdr_ok b0 b1 b2 b3 hdr hdec
    refine ⟨?_, ?_, ?_, ?_⟩
    · rw [hf, word_testBit31 b0 b1 b2 b3 h1 h2 h3]
    · rw [ht, word_byte0 b0 b1 b2 b3 h1 h2 h3]
    · rw [hl, hdr_length_eq b0 b1 b2 b3 h0 h1 h2 h3]
    · rw [hl, hdr_length_eq b0 b1 b2 b3 h0 h1 h2 h3]
      omega
  refine ⟨main, ?_⟩
  intro b0 b1 b2 b3 b0' b1' b2' b3' hdr hdr' h0 h1 h2 h3 h0' h1' h2' h3' hbit hdec hdec'
  have e := (main b0 b1 b2 b3 hdr h0 h1 h2 h3 hdec).1
  have e' := (main b0' b1' b2' b3' hdr' h0' h1' h2' h3' hdec').1
  rw [e, e', hbit]

/-- C2 witness: the concrete header word `0x80 0x00 0x00 0x22`
(final STREAMINFO block of length 34). -/
theorem c2_header_bit_layout_witness :
    create_metadata_blk_hdr 128 0 0 34 = .ok ⟨true, .streaminfo, 34⟩
    ∧ ((⟨true, .streaminfo, 34⟩ : MetadataBlkHdr).is_final_block
        = (from_be [128, 0, 0, 34]).testBit 31
      ∧ typeCode (⟨true, .streaminfo, 34⟩ : MetadataBlkHdr).blk_type
        = (from_be [128, 0, 0, 34] >>> 24) &&& 127
      ∧ (⟨true, .streaminfo, 34⟩ : MetadataBlkHdr).length = 0 * 2 ^ 16 + 0 * 2 ^ 8 + 34
      ∧ (⟨true, .streaminfo, 34⟩ : MetadataBlkHdr).length < 2 ^ 24) :=
  ⟨rfl, c2_header_bit_layout.1 128 0 0 34 ⟨true, .streaminfo, 34⟩ (by decide) (by decide)
    (by decide) (by decide) rfl⟩

/-- C3 counterexample: the claim says type code 7 decodes successfully to a
`Reserved` variant, but the decoder has no such variant and returns an
error on code 7. -/
theorem c3_counterexample : create_metadata_blk_hdr 7 0 0 0 = .error 7 := rfl

/-- C3 (amended): a type code in 7..126 makes the 4-byte header decoder
itself fail with the unexpected-block-type error carrying that code (there
is no `Reserved` variant); decoding succeeds exactly when the code is 0..6
or 127. -/
theorem c3_reserved_codes_error :
    (∀ b0 b1 b2 b3 : Nat, 7 ≤ b0 &&& 127 → b0 &&& 127 ≤ 126 →
      create_metadata_blk_hdr b0 b1 b2 b3 = .error (b0 &&& 127))
    ∧ (∀ b0 b1 b2 b3 : Nat, (create_metadata_blk_hdr b0 b1 b2 b3).isOk = true
      ↔ (b0 &&& 127 < 7 ∨ b0 &&& 127 = 127)) :=
  ⟨fun b0 b1 b2 b3 h7 h126 => create_hdr_error b0 b1 b2 b3 h7 h126,
   fun b0 b1 b2 b3 => create_hdr_isOk b0 b1 b2 b3⟩

/-- C3 witness: type code 8 (a reserved code) at a concrete header word. -/
theorem c3_reserved_codes_error_witness :
    (7 ≤ 8 &&& 127 ∧ 8 &&& 127 ≤ 126)
    ∧ create_metadata_blk_hdr 8 1 2 3 = .error (8 &&& 127) :=
  ⟨⟨by decide, by decide⟩, c3_reserved_codes_error.1 8 1 2 3 (by decide) (by decide)⟩

/-- A final Forbidden (type code 127) block is accepted and the loop
stops with success. -/
lemma blockLoop_forbidden_final : blockLoop [255, 0, 0, 0] = .ok () := by
  rw [blockLoop_step 255 0 0 0 [] ⟨true, .forbidden, 0⟩ rfl (fun h => absurd h (by decide))]
  rfl

/-- C4 counterexample: a source whose single block decodes to Forbidden
(code 127) parses to overall success --- the iterator does not abort on a
Forbidden block, it skips it. -/
theorem c4_counterexample :
    create_metadata_blk_hdr 255 0 0 0 = .ok ⟨true, .forbidden, 0⟩
    ∧ readFlacHdr (flacMagic ++ [255, 0, 0, 0]) = .ok () :=
  ⟨rfl, by rw [readFlacHdr_magic]; exact blockLoop_forbidden_final⟩

/-- C4 (amended): when the block loop meets a header whose type code lies
in 7..126 (Reserved) it aborts at once with the fatal
unexpected-block-type error, raised by the header decoder; a Forbidden
(127) header however decodes successfully and its block is processed like
any other non-STREAMINFO block --- a final Forbidden block yields overall
success. -/
theorem c4_reserved_aborts_forbidden_skipped :
    (∀ b0 b1 b2 b3 : Nat, ∀ rest : List Nat, 7 ≤ b0 &&& 127 → b0 &&& 127 ≤ 126 →
      blockLoop (b0 :: b1 :: b2 :: b3 :: rest)
        = .error (.unexpectedBlockType (b0 &&& 127)))
    ∧ readFlacHdr (flacMagic ++ [255, 0, 0, 0]) = .ok () := by
  constructor
  · intro b0 b1 b2 b3 rest h7 h126
    exact blockLoop_error b0 b1 b2 b3 rest _ (create_hdr_error b0 b1 b2 b3 h7 h126)
  · rw [readFlacHdr_magic]
    exact blockLoop_forbidden_final

/-- C4 witness: a Reserved code 10 block aborts the loop at a concrete
source. -/
theorem c4_reserved_aborts_witness :
    (7 ≤ 10 &&& 127 ∧ 10 &&& 127 ≤ 126)
    ∧ blockLoop [10, 0, 0, 5, 1, 2, 3] = .error (.unexpectedBlockType (10 &&& 127)) :=
  ⟨⟨by decide, by decide⟩,
    c4_reserved_aborts_forbidden_skipped.1 10 0 0 5 [1, 2, 3] (by decide) (by decide)⟩

/-- C6: the STREAMINFO decoder fails with its insufficient-data error
exactly when the payload is shorter than 34 bytes; every payload of at
least 34 byte values decodes to `Ok` (never a panic: all slice copies stay
in bounds with matching lengths, all narrowings succeed); a 33-byte
payload errors and the all-zero 34-byte payload decodes to the all-zero
record. -/
theorem c6_insufficient_iff_short :
    (∀ payload : List Nat, (∀ b ∈ payload, b < 256) →
      ((Streaminfo.new payload = .insufficient ↔ payload.length < 34)
      ∧ (34 ≤ payload.length → ∃ si, Streaminfo.new payload = .ok si)))
    ∧ Streaminfo.new (List.replicate 33 0) = .insufficient
    ∧ Streaminfo.new (List.replicate 34 0) = .ok ⟨0, 0, 0, 0, 0, 0, 0, 0, 0⟩ := by
  refine ⟨?_, rfl, rfl⟩
  intro payload hb
  refine ⟨⟨?_, ?_⟩, ?_⟩
  · intro h
    by_contra hlen
    push_neg at hlen
    rw [streaminfo_new_eq payload hlen hb] at h
    exact SiResult.noConfusion h
  · intro hlen
    unfold Streaminfo.new
    rw [if_pos hlen]
  · intro hlen
    exact ⟨_, streaminfo_new_eq payload hlen hb⟩

/-- C6 witness: a concrete 40-byte payload of byte values. -/
theorem c6_insufficient_iff_short_witness :
    (∀ b ∈ List.replicate 40 7, b < 256)
    ∧ ((Streaminfo.new (List.replicate 40 7) = .insufficient
        ↔ (List.replicate 40 7).length < 34)
      ∧ (34 ≤ (List.replicate 40 7).length →
        ∃ si, Streaminfo.new (List.replicate 40 7) = .ok si)) :=
  ⟨by decide, c6_insufficient_iff_short.1 (List.replicate 40 7) (by decide)⟩

/-- C1: on every 34-byte payload of byte values the decoder extracts the
four sub-byte fields of the 8-byte cluster (bytes 10..18 as a big-endian
64-bit integer) as its 20/3/5/36-bit spans, most-significant first, with
no bit leaking between fields. -/
theorem c1_cluster_fields_extracted :
    ∀ payload : List Nat, payload.length = 34 → (∀ b ∈ payload, b < 256) →
      ∃ si, Streaminfo.new payload = .ok si
      ∧ si.sample_rate = clusterOf payload / 2 ^ 44
      ∧ si.num_channels = clusterOf payload / 2 ^ 41 % 2 ^ 3
      ∧ si.bits_per_sample = clusterOf payload / 2 ^ 36 % 2 ^ 5
      ∧ si.total_sample_count = clusterOf payload % 2 ^ 36 := by
  intro payload hlen hb
  exact ⟨_, streaminfo_new_eq payload (by omega) hb, rfl, rfl, rfl, rfl⟩

/-- C1 witness: the payload whose cluster holds 44100 in the top 20 bits
and zeros elsewhere decodes to `sample_rate = 44100` and zero
`num_channels`, `bits_per_sample`, `total_sample_count`. -/
theorem c1_cluster_fields_witness :
    (List.replicate 10 0 ++ [10, 196, 64, 0, 0, 0, 0, 0]
      ++ List.replicate 16 0).length = 34
    ∧ clusterOf (List.replicate 10 0 ++ [10, 196, 64, 0, 0, 0, 0, 0]
      ++ List.replicate 16 0) / 2 ^ 44 = 44100
    ∧ clusterOf (List.replicate 10 0 ++ [10, 196, 64, 0, 0, 0, 0, 0]
      ++ List.replicate 16 0) / 2 ^ 41 % 2 ^ 3 = 0
    ∧ clusterOf (List.replicate 10 0 ++ [10, 196, 64, 0, 0, 0, 0, 0]
      ++ List.replicate 16 0) / 2 ^ 36 % 2 ^ 5 = 0
    ∧ clusterOf (List.replicate 10 0 ++ [10, 196, 64, 0, 0, 0, 0, 0]
      ++ List.replicate 16 0) % 2 ^ 36 = 0
    ∧ ∃ si, Streaminfo.new (List.replicate 10 0 ++ [10, 196, 64, 0, 0, 0, 0, 0]
        ++ List.replicate 16 0) = .ok si
      ∧ si.sample_rate = clusterOf (List.replicate 10 0 ++ [10, 196, 64, 0, 0, 0, 0, 0]
        ++ List.replicate 16 0) / 2 ^ 44
      ∧ si.num_channels = clusterOf (List.replicate 10 0 ++ [10, 196, 64, 0, 0, 0, 0, 0]
        ++ List.replicate 16 0) / 2 ^ 41 % 2 ^ 3
      ∧ si.bits_per_sample = clusterOf (List.replicate 10 0 ++ [10, 196, 64, 0, 0, 0, 0, 0]
        ++ List.replicate 16 0) / 2 ^ 36 % 2 ^ 5
      ∧ si.total_sample_count = clusterOf (List.replicate 10 0 ++ [10, 196, 64, 0, 0, 0, 0, 0]
        ++ List.replicate 16 0) % 2 ^ 36 := by
  refine ⟨rfl, rfl, rfl, rfl, rfl, ?_⟩
  exact c1_cluster_fields_extracted _ rfl (by decide)

lemma from_be_cons_zero (l : List Nat) : from_be (0 :: l) = from_be l := by
  show 0 * 256 ^ l.length + from_be l = from_be l
  omega

/-- Reassembling the four cluster fields at their bit offsets recovers the
64-bit cluster. -/
lemma cluster_recompose (c : Nat) :
    c / 2 ^ 44 * 2 ^ 44 + c / 2 ^ 41 % 2 ^ 3 * 2 ^ 41
      + c / 2 ^ 36 % 2 ^ 5 * 2 ^ 36 + c % 2 ^ 36 = c := by
  omega

/-- The six byte segments of a 34-byte buffer concatenate back to it. -/
lemma chunks_concat34 (l : List Nat) (h : l.length = 34) :
    l.take 2 ++ ((l.drop 2).take 2 ++ ((l.drop 4).take 3 ++ ((l.drop 7).take 3
      ++ ((l.drop 10).take 8 ++ (l.drop 18).take 16)))) = l := by
  have h18 : (l.drop 18).take 16 = l.drop 18 :=
    List.take_of_length_le (by simp [h])
  have e2 : (l.drop 2).take 2 ++ l.drop 4 = l.drop 2 := by
    rw [show (4 : Nat) = 2 + 2 from rfl, ← List.drop_drop, List.take_append_drop]
  have e4 : (l.drop 4).take 3 ++ l.drop 7 = l.drop 4 := by
    rw [show (7 : Nat) = 4 + 3 from rfl, ← List.drop_drop, List.take_append_drop]
  have e7 : (l.drop 7).take 3 ++ l.drop 10 = l.drop 7 := by
    rw [show (10 : Nat) = 7 + 3 from rfl, ← List.drop_drop, List.take_append_drop]
  have e10 : (l.drop 10).take 8 ++ l.drop 18 = l.drop 10 := by
    rw [show (18 : Nat) = 10 + 8 from rfl, ← List.drop_drop, List.take_append_drop]
  rw [h18, e10, e7, e4, e2, List.take_append_drop]

lemma toBE_from_be_of_len (l : List Nat) (n : Nat) (hn : l.length = n)
    (h : ∀ b ∈ l, b < 256) : toBE n (from_be l) = l := by
  subst hn
  exact toBE_from_be l h

/-- C5: on every 34-byte payload of byte values, the decode body consumes
exactly 34 bytes (272 bits) and re-packing the nine decoded fields with the
inverse bit layout (16, 16, 24, 24, 20, 3, 5, 36, 128 bits,
most-significant first) reproduces the payload exactly. -/
theorem c5_roundtrip :
    ∀ payload : List Nat, payload.length = 34 → (∀ b ∈ payload, b < 256) →
      ∃ si, decodeSI payload = some (si, 34) ∧ 34 * 8 = 272
      ∧ specPackStreaminfo si = payload := by
  intro payload hlen hb
  refine ⟨_, decodeSI_eq payload (by omega) hb, rfl, ?_⟩
  have hbseg : ∀ k n : Nat, ∀ b ∈ (payload.drop k).take n, b < 256 := fun k n b hbm =>
    hb b (List.mem_of_mem_drop (List.mem_of_mem_take hbm))
  have hbtake : ∀ b ∈ payload.take 2, b < 256 := fun b hbm =>
    hb b (List.mem_of_mem_take hbm)
  simp only [specPackStreaminfo, clusterOf]
  rw [cluster_recompose]
  rw [from_be_cons_zero, from_be_cons_zero]
  rw [toBE_from_be_of_len (payload.take 2) 2 (by simp; omega) hbtake,
    toBE_from_be_of_len ((payload.drop 2).take 2) 2 (by simp [hlen]) (hbseg 2 2),
    toBE_from_be_of_len ((payload.drop 4).take 3) 3 (by simp [hlen]) (hbseg 4 3),
    toBE_from_be_of_len ((payload.drop 7).take 3) 3 (by simp [hlen]) (hbseg 7 3),
    toBE_from_be_of_len ((payload.drop 10).take 8) 8 (by simp [hlen]) (hbseg 10 8),
    toBE_from_be_of_len ((payload.drop 18).take 16) 16 (by simp [hlen]) (hbseg 18 16)]
  simp only [List.append_assoc]
  exact chunks_concat34 payload hlen

/-- C5 witness: the concrete payload holding bytes 0..33. -/
theorem c5_roundtrip_witness :
    (List.range 34).length = 34
    ∧ ∃ si, decodeSI (List.range 34) = some (si, 34) ∧ 34 * 8 = 272
      ∧ specPackStreaminfo si = List.range 34 :=
  ⟨rfl, c5_roundtrip (List.range 34) rfl (by decide)⟩

/-- C7: a source declaring a 34-byte STREAMINFO payload but holding only 20
further bytes: the parse does not fail with any truncated-payload error ---
the single `read` into the zero-initialized buffer is not checked, the
remaining 14 bytes stay zero, and the STREAMINFO record is decoded from the
partly zero-filled buffer (its md5 field carries the two available bytes
followed by zeros). -/
theorem c7_short_read_zero_filled :
    (List.replicate 20 7).length < 34
    ∧ padRead 34 (List.replicate 20 7) = List.replicate 20 7 ++ List.replicate 14 0
    ∧ readFlacHdr (flacMagic ++ ([128, 0, 0, 34] ++ List.replicate 20 7)) = .ok ()
    ∧ Streaminfo.new (padRead 34 (List.replicate 20 7))
        = .ok ⟨1799, 1799, 460551, 460551, 28784, 3, 16, 30182672135,
          9340942048504154903726362896266952704⟩ := by
  refine ⟨by decide, by decide, ?_, by decide⟩
  rw [readFlacHdr_magic]
  rw [show ([128, 0, 0, 34] ++ List.replicate 20 7 : List Nat)
    = 128 :: 0 :: 0 :: 34 :: List.replicate 20 7 from rfl]
  rw [blockLoop_step 128 0 0 34 (List.replicate 20 7) ⟨true, .streaminfo, 34⟩ rfl
    (fun _ => ⟨⟨1799, 1799, 460551, 460551, 28784, 3, 16, 30182672135,
      9340942048504154903726362896266952704⟩, by decide⟩)]
  rfl

/-- C8: at the 34-byte all-zero input, the `main.rs` decoder returns the
all-zero record while the `metadata.rs` draft panics inside
`copy_from_slice` (its `get_blk_size` passes the bit width 16 as a byte
count into a 2-byte destination slice), so the two are not behaviorally
equivalent; the draft panics on every input of length at least 34, and the
two agree only on inputs shorter than 34 bytes (both insufficient). -/
theorem c8_draft_not_equivalent :
    Streaminfo.new (List.replicate 34 0) = .ok ⟨0, 0, 0, 0, 0, 0, 0, 0, 0⟩
    ∧ Metadata.Streaminfo.new (List.replicate 34 0) = .panicked
    ∧ (∀ raw : List Nat, 34 ≤ raw.length → Metadata.Streaminfo.new raw = .panicked)
    ∧ (∀ raw : List Nat, raw.length < 34 →
        Metadata.Streaminfo.new raw = .insufficient
        ∧ Streaminfo.new raw = .insufficient) := by
  refine ⟨rfl, rfl, metadata_streaminfo_new_panics, ?_⟩
  intro raw hlen
  constructor
  · unfold Metadata.Streaminfo.new
    rw [if_pos hlen]
  · unfold Streaminfo.new
    rw [if_pos hlen]

/-- C8 witness: the draft panics at a concrete 40-byte input. -/
theorem c8_draft_not_equivalent_witness :
    34 ≤ (List.replicate 40 0).length
    ∧ Metadata.Streaminfo.new (List.replicate 40 0) = .panicked :=
  ⟨by decide, c8_draft_not_equivalent.2.2.1 (List.replicate 40 0) (by decide)⟩

/-- C9: started after a valid magic, the block loop returns overall success
exactly on the sources that decompose into a chain of blocks --- each a
decodable 4-byte header followed by its declared payload (decoded when the
type is STREAMINFO) --- in which every block is non-final except the last
one, which is the first block with the final-block flag set; the chain
length is unbounded (no block-count limit). -/
theorem c9_loop_stops_at_first_final :
    ∀ src : List Nat, readFlacHdr (flacMagic ++ src) = .ok () ↔ ChainOk src := by
  intro src
  rw [readFlacHdr_magic]
  exact ⟨fun h => blockLoop_chainOk src.length src le_rfl h, chainOk_blockLoop⟩

/-- C9 witness: the singleton final padding block. -/
theorem c9_loop_stops_witness : ChainOk [129, 0, 0, 0] :=
  (c9_loop_stops_at_first_final [129, 0, 0, 0]).mp (by
    rw [readFlacHdr_magic]
    rw [blockLoop_step 129 0 0 0 [] ⟨true, .padding, 0⟩ rfl (fun h => absurd h (by decide))]
    rfl)

/-- C10: a stream with no STREAMINFO block at all still parses
successfully: for every `n`, the source holding the magic followed by `n`
non-final zero-length PADDING blocks and one final PADDING block returns
success, and the parse result (the unit value, as in the Rust
`Result<(), Error>`) carries no stream parameters and no error signalling
their absence; both headers involved decode to the PADDING type. -/
theorem c10_no_streaminfo_still_parses :
    ∀ n : Nat, readFlacHdr (flacMagic ++ paddingChain n) = .ok ()
    ∧ create_metadata_blk_hdr 1 0 0 0 = .ok ⟨false, .padding, 0⟩
    ∧ create_metadata_blk_hdr 129 0 0 0 = .ok ⟨true, .padding, 0⟩ := by
  intro n
  refine ⟨?_, rfl, rfl⟩
  rw [readFlacHdr_magic]
  induction n with
  | zero =>
    rw [show paddingChain 0 = [129, 0, 0, 0] from rfl]
    rw [blockLoop_step 129 0 0 0 [] ⟨true, .padding, 0⟩ rfl (fun h => absurd h (by decide))]
    rfl
  | succ n ih =>
    rw [show paddingChain (n + 1) = 1 :: 0 :: 0 :: 0 :: paddingChain n from rfl]
    rw [blockLoop_step 1 0 0 0 (paddingChain n) ⟨false, .padding, 0⟩ rfl
      (fun h => absurd h (by decide))]
    simpa using ih

/-- C10 witness: three padding blocks, no STREAMINFO, success. -/
theorem c10_no_streaminfo_witness :
    readFlacHdr (flacMagic ++ paddingChain 2) = .ok () :=
  (c10_no_streaminfo_still_parses 2).1
